import Mathlib

/-!
Shallow embedding of src/fast_api.rs (the fast-call descriptor and
marshaling layer): the scalar/shape tag enumerations and their
conversions, the descriptor builders, the typed-array view access
functions, and the registrant trait, with theorems checking the
specified properties.
-/

set_option autoImplicit false

/-- Scalar type tags, mirroring the Rust repr(u8) enum CType
(fast_api.rs lines 76-95). -/
inductive CType where
  | Void
  | Bool
  | Uint8
  | Int32
  | Uint32
  | Int64
  | Uint64
  | Float32
  | Float64
  | V8Value
  | CallbackOptions
  deriving DecidableEq, Repr, Fintype

/-- The numeric discriminant of each CType value under repr(u8):
Void = 0 and the following variants count up implicitly, except
CallbackOptions which is pinned to 255 in the source. -/
def CType.tag : CType → Nat
  | .Void => 0
  | .Bool => 1
  | .Uint8 => 2
  | .Int32 => 3
  | .Uint32 => 4
  | .Int64 => 5
  | .Uint64 => 6
  | .Float32 => 7
  | .Float64 => 8
  | .V8Value => 9
  | .CallbackOptions => 255

/-- Shape tags, mirroring the Rust repr(u8) enum SequenceType
(fast_api.rs lines 64-74). -/
inductive SequenceType where
  | Scalar
  | IsSequence
  | IsTypedArray
  | IsArrayBuffer
  deriving DecidableEq, Repr, Fintype

/-- The declarant-facing logical argument type, mirroring the Rust enum
Type (fast_api.rs lines 97-113); named Type' because Type is reserved
in Lean. -/
inductive Type' where
  | Void
  | Bool
  | Int32
  | Uint32
  | Int64
  | Uint64
  | Float32
  | Float64
  | V8Value
  | CallbackOptions
  | Sequence (ty : CType)
  | TypedArray (ty : CType)
  | ArrayBuffer (ty : CType)
  deriving DecidableEq, Repr, Fintype

/-- impl From<&Type> for CType (fast_api.rs lines 115-133). -/
def CType.fromType : Type' → CType
  | .Void => .Void
  | .Bool => .Bool
  | .Int32 => .Int32
  | .Uint32 => .Uint32
  | .Int64 => .Int64
  | .Uint64 => .Uint64
  | .Float32 => .Float32
  | .Float64 => .Float64
  | .V8Value => .V8Value
  | .CallbackOptions => .CallbackOptions
  | .Sequence ty => ty
  | .TypedArray ty => ty
  | .ArrayBuffer ty => ty

/-- impl From<&Type> for SequenceType (fast_api.rs lines 135-144). -/
def SequenceType.fromType : Type' → SequenceType
  | .Sequence _ => .IsSequence
  | .TypedArray _ => .IsTypedArray
  | .ArrayBuffer _ => .IsArrayBuffer
  | _ => .Scalar

/-- The repr(C) pair struct CTypeSequenceInfo (fast_api.rs lines
155-159). -/
structure CTypeSequenceInfo where
  c_type : CType
  sequence_type : SequenceType
  deriving DecidableEq, Repr, Fintype

/-- impl From<&Type> for CTypeSequenceInfo (fast_api.rs lines
146-153). -/
def CTypeSequenceInfo.fromType (ty : Type') : CTypeSequenceInfo :=
  { c_type := CType.fromType ty, sequence_type := SequenceType.fromType ty }

/-- Byte-addressed memory, abstracting the process address space the
raw data pointer of a typed-array view points into. -/
abbrev Mem := Nat → Nat

/-- Reading n consecutive bytes from memory starting at addr (the
source side of ptr::copy_nonoverlapping). -/
def readBytes (mem : Mem) (addr : Nat) : Nat → List Nat
  | 0 => []
  | n + 1 => mem addr :: readBytes mem (addr + 1) n

/-- ptr::copy_nonoverlapping of n bytes from address src in memory
into the local byte buffer dst: the first n bytes of dst are
overwritten, the rest kept. -/
def copyBytes (mem : Mem) : Nat → Nat → List Nat → List Nat
  | _, 0, dst => dst
  | _, _ + 1, [] => []
  | src, n + 1, _ :: ds => mem src :: copyBytes mem (src + 1) n ds

/-- The element type parameter T of FastApiTypedArray, reduced to the
two layout quantities the source consults: size_of and align_of. -/
structure ElemType where
  size : Nat
  align : Nat

/-- The repr(C) struct FastApiTypedArray (fast_api.rs lines 191-200):
an element count (named byte_length in the source) and a raw base
address. -/
structure FastApiTypedArray where
  byte_length : Nat
  data : Nat

/-- FastApiTypedArray::get (fast_api.rs lines 202-211): asserts
index < byte_length (modelled as the some/none split), default
initializes a local of T (its defaultBytes), then copies size_of bytes
byte-wise from data + index * size_of over it. -/
def FastApiTypedArray.get (a : FastApiTypedArray) (T : ElemType)
    (defaultBytes : List Nat) (mem : Mem) (index : Nat) :
    Option (List Nat) :=
  if index < a.byte_length then
    some (copyBytes mem (a.data + index * T.size) T.size defaultBytes)
  else
    none

/-- FastApiTypedArray::get_storage_if_aligned (fast_api.rs lines
213-224): none when the base address is not a multiple of align_of,
otherwise the slice represented as its base address paired with its
length byte_length / align_of. -/
def FastApiTypedArray.get_storage_if_aligned (a : FastApiTypedArray)
    (T : ElemType) : Option (Nat × Nat) :=
  if a.data % T.align ≠ 0 then
    none
  else
    some (a.data, a.byte_length / T.align)

/-- The i-th element of a typed slice with the given base address, as
its byte content: a T lives at base + i * size_of and spans size_of
bytes. -/
def sliceElem (T : ElemType) (mem : Mem) (base i : Nat) : List Nat :=
  readBytes mem (base + i * T.size) T.size

/-- The record of one call to the external factory
v8__CFunctionInfo__New (fast_api.rs lines 14-18), an opaque
collaborator modelled as remembering exactly the arguments forwarded
to it; descriptor handles are opaque and modelled as Nat, and the
argument array is the list of handles the args pointer points at. -/
structure CFunctionInfoNewCall where
  return_info : Nat
  args_len : Nat
  args_info : List Nat
  deriving DecidableEq, Repr

/-- extern fn v8__CFunctionInfo__New, modelled as recording its
arguments in order. -/
def v8__CFunctionInfo__New (return_info : Nat) (args_len : Nat)
    (args_info : List Nat) : CFunctionInfoNewCall :=
  { return_info := return_info, args_len := args_len, args_info := args_info }

/-- CFunctionInfo::new (fast_api.rs lines 29-37): takes the argument
descriptor array, an explicit args_len parameter and the return
descriptor, and forwards them to the external factory as
(return_type, args_len, args). -/
def CFunctionInfo.new (args : List Nat) (args_len : Nat)
    (return_type : Nat) : CFunctionInfoNewCall :=
  v8__CFunctionInfo__New return_type args_len args

/-- extern fn v8__CTypeInfo__New__From__Slice (fast_api.rs lines
10-13), an opaque collaborator modelled as remembering the forwarded
length and the pair array the pointer points at. -/
def v8__CTypeInfo__New__From__Slice (len : Nat)
    (tys : List CTypeSequenceInfo) : Nat × List CTypeSequenceInfo :=
  (len, tys)

/-- CTypeInfo::new_from_slice (fast_api.rs lines 48-61): pushes the
translation of each input type into a growing vector, then hands the
vector length and contents to the external factory. -/
def CTypeInfo.new_from_slice (types : List Type') :
    Nat × List CTypeSequenceInfo :=
  let structs :=
    types.foldl (fun s type_ => s ++ [CTypeSequenceInfo.fromType type_]) []
  v8__CTypeInfo__New__From__Slice structs.length structs

/-- The trait FastFunction (fast_api.rs lines 227-235): an
implementation supplies a function pointer (modelled as Nat) and may
override the defaulted args and return_type methods; the defaults are
the empty list and CType::Void as in the source. -/
structure FastFunction where
  args : List Type' := []
  return_type : CType := CType.Void
  function : Nat

/-- Overwriting a local buffer of exactly n bytes with an n-byte copy
from memory yields exactly the n bytes read from memory, whatever the
buffer held before. -/
theorem copyBytes_eq_readBytes (mem : Mem) :
    ∀ (n src : Nat) (dst : List Nat), dst.length = n →
      copyBytes mem src n dst = readBytes mem src n
  | 0, _, [], _ => rfl
  | 0, _, _ :: _, h => by simp at h
  | n + 1, src, [], h => by simp at h
  | n + 1, src, d :: ds, h => by
    have hds : ds.length = n := by simpa using h
    simp [copyBytes, readBytes, copyBytes_eq_readBytes mem n (src + 1) ds hds]

/-- Folding push over a list starting from an accumulator appends the
element-wise image. -/
theorem foldl_push_eq_map (f : Type' → CTypeSequenceInfo) :
    ∀ (ts : List Type') (acc : List CTypeSequenceInfo),
      ts.foldl (fun s t => s ++ [f t]) acc = acc ++ ts.map f
  | [], acc => by simp
  | t :: ts, acc => by
    simp [List.foldl, foldl_push_eq_map f ts (acc ++ [f t])]

/-- C2: for every element type T, every typed-array view, and every
index i below byte_length, get(i) returns exactly the size_of T bytes
copied byte-wise from base + i * size_of T, for any contents of the
default-initialized local and any base address (aligned or not). -/
theorem get_spec (T : ElemType) (a : FastApiTypedArray) (db : List Nat)
    (mem : Mem) (i : Nat) (hdb : db.length = T.size)
    (hi : i < a.byte_length) :
    a.get T db mem i = some (readBytes mem (a.data + i * T.size) T.size) := by
  unfold FastApiTypedArray.get
  rw [if_pos hi, copyBytes_eq_readBytes mem T.size (a.data + i * T.size) db hdb]

/-- C2 witness: a two-element view of an 8-byte type at the misaligned
base address 5; get 1 reads the 8 bytes at address 13. -/
theorem get_spec_witness :
    FastApiTypedArray.get ⟨2, 5⟩ ⟨8, 8⟩ (List.replicate 8 0) (fun n => n) 1 =
      some (readBytes (fun n => n) (5 + 1 * 8) 8) :=
  get_spec ⟨8, 8⟩ ⟨2, 5⟩ (List.replicate 8 0) (fun n => n) 1 (by decide)
    (by decide)

/-- C1: get_storage_if_aligned returns none exactly when the base
address is not a multiple of align_of T; when it returns a slice, the
slice has length byte_length / align_of T and its i-th element equals
the get i result for every i below that length. -/
theorem get_storage_if_aligned_spec (T : ElemType) (a : FastApiTypedArray)
    (db : List Nat) (mem : Mem) (hdb : db.length = T.size) :
    (a.get_storage_if_aligned T = none ↔ a.data % T.align ≠ 0) ∧
    (∀ base len, a.get_storage_if_aligned T = some (base, len) →
      len = a.byte_length / T.align ∧
      ∀ i, i < len → a.get T db mem i = some (sliceElem T mem base i)) := by
  unfold FastApiTypedArray.get_storage_if_aligned
  by_cases h : a.data % T.align ≠ 0
  · rw [if_pos h]
    refine ⟨by simp [h], ?_⟩
    intro base len hsome
    cases hsome
  · rw [if_neg h]
    refine ⟨by simp [h], ?_⟩
    intro base len hsome
    have h2 := Option.some.inj hsome
    rw [Prod.mk.injEq] at h2
    obtain ⟨hb, hl⟩ := h2
    subst hb
    subst hl
    refine ⟨rfl, ?_⟩
    intro i hi
    have hib : i < a.byte_length :=
      lt_of_lt_of_le hi (Nat.div_le_self a.byte_length T.align)
    unfold FastApiTypedArray.get sliceElem
    rw [if_pos hib,
      copyBytes_eq_readBytes mem T.size (a.data + i * T.size) db hdb]

/-- C1 witness: a 4-byte type at the aligned base 12 with byte_length
8 yields a slice of length 2 whose element 1 is the get 1 result. -/
theorem get_storage_if_aligned_spec_witness :
    FastApiTypedArray.get ⟨8, 12⟩ ⟨4, 4⟩ (List.replicate 4 0) (fun n => n) 1 =
      some (sliceElem ⟨4, 4⟩ (fun n => n) 12 1) :=
  ((get_storage_if_aligned_spec ⟨4, 4⟩ ⟨8, 12⟩ (List.replicate 4 0)
      (fun n => n) (by decide)).2 12 2 (by decide)).2 1 (by decide)

/-- C9: for an element type of alignment 1 the storage is always
present, with length equal to byte_length, and get accepts exactly the
indices below byte_length. -/
theorem align_one_storage_spec (T : ElemType) (a : FastApiTypedArray)
    (h1 : T.align = 1) :
    a.get_storage_if_aligned T = some (a.data, a.byte_length) ∧
    ∀ db mem i, ((a.get T db mem i).isSome ↔ i < a.byte_length) := by
  constructor
  · unfold FastApiTypedArray.get_storage_if_aligned
    rw [h1]
    simp [Nat.mod_one]
  · intro db mem i
    unfold FastApiTypedArray.get
    by_cases h : i < a.byte_length <;> simp [h]

/-- C9 witness: a one-byte element type over a view of 3 elements at
base 7 always yields the full-length storage. -/
theorem align_one_storage_spec_witness :
    FastApiTypedArray.get_storage_if_aligned ⟨3, 7⟩ ⟨1, 1⟩ = some (7, 3) :=
  (align_one_storage_spec ⟨1, 1⟩ ⟨3, 7⟩ rfl).1

/-- C3: the translation of a logical argument type to its
(scalar tag, shape tag) pair is total and deterministic; each buffer
kind yields its element type as the scalar tag with the matching
container shape, and every non-buffer kind yields shape Scalar. -/
theorem type_translation_spec (t : Type') :
    (∃! p : CTypeSequenceInfo, CTypeSequenceInfo.fromType t = p) ∧
    (∀ e, t = Type'.Sequence e →
      CTypeSequenceInfo.fromType t = ⟨e, SequenceType.IsSequence⟩) ∧
    (∀ e, t = Type'.TypedArray e →
      CTypeSequenceInfo.fromType t = ⟨e, SequenceType.IsTypedArray⟩) ∧
    (∀ e, t = Type'.ArrayBuffer e →
      CTypeSequenceInfo.fromType t = ⟨e, SequenceType.IsArrayBuffer⟩) ∧
    ((∀ e, t ≠ Type'.Sequence e ∧ t ≠ Type'.TypedArray e ∧
        t ≠ Type'.ArrayBuffer e) →
      (CTypeSequenceInfo.fromType t).sequence_type = SequenceType.Scalar) := by
  constructor
  · exact ⟨CTypeSequenceInfo.fromType t, rfl, fun p h => h.symm⟩
  · revert t
    decide

/-- C3 witness: a sequence of Uint8 translates to the pair
(Uint8, IsSequence). -/
theorem type_translation_spec_witness :
    CTypeSequenceInfo.fromType (Type'.Sequence CType.Uint8) =
      ⟨CType.Uint8, SequenceType.IsSequence⟩ :=
  (type_translation_spec (Type'.Sequence CType.Uint8)).2.1 CType.Uint8 rfl

/-- C4: the CallbackOptions tag is encoded as 255, every other scalar
tag has a different encoding, and 255 is the highest encoding in the
enumeration. -/
theorem callback_options_tag_spec :
    CType.tag CType.CallbackOptions = 255 ∧
    (∀ c : CType, c ≠ CType.CallbackOptions →
      CType.tag c ≠ CType.tag CType.CallbackOptions) ∧
    (∀ c : CType, CType.tag c ≤ 255) := by
  decide

/-- C4 witness: the Void tag differs from the CallbackOptions tag. -/
theorem callback_options_tag_spec_witness :
    CType.tag CType.Void ≠ CType.tag CType.CallbackOptions :=
  callback_options_tag_spec.2.1 CType.Void (by decide)

/-- C10: the translation to (scalar tag, shape tag) pairs is
injective: equal pairs come from equal logical argument types. -/
theorem type_translation_injective (a b : Type')
    (h : CTypeSequenceInfo.fromType a = CTypeSequenceInfo.fromType b) :
    a = b := by
  revert a b h
  decide

/-- C10 witness: applied at ArrayBuffer Int32 against itself. -/
theorem type_translation_injective_witness :
    Type'.ArrayBuffer CType.Int32 = Type'.ArrayBuffer CType.Int32 :=
  type_translation_injective (Type'.ArrayBuffer CType.Int32)
    (Type'.ArrayBuffer CType.Int32) rfl

/-- C5 counterexample: the signature builder does take an explicit
arity parameter, so the arity handed to the external factory is not
implied by the argument list: with an empty list and args_len 1 the
forwarded arity differs from the list length. -/
theorem cfunctioninfo_new_arity_counterexample :
    ¬ (CFunctionInfo.new [] 1 0).args_len =
        (CFunctionInfo.new [] 1 0).args_info.length := by
  decide

/-- C5 amended: CFunctionInfo::new exposes an explicit args_len
parameter and forwards it unchanged as the signature arity,
independently of the argument-descriptor list: two calls differing
only in args_len produce different forwarded signatures. -/
theorem cfunctioninfo_new_arity_explicit (args : List Nat)
    (l1 l2 ret : Nat) :
    (CFunctionInfo.new args l1 ret).args_len = l1 ∧
    (l1 ≠ l2 → CFunctionInfo.new args l1 ret ≠ CFunctionInfo.new args l2 ret) :=
  ⟨rfl, fun hne hc => hne (congrArg CFunctionInfoNewCall.args_len hc)⟩

/-- C5 amended witness: arity 0 and arity 1 calls over the same empty
list are distinct forwarded signatures. -/
theorem cfunctioninfo_new_arity_explicit_witness :
    CFunctionInfo.new [] 0 0 ≠ CFunctionInfo.new [] 1 0 :=
  (cfunctioninfo_new_arity_explicit [] 0 1 0).2 (by decide)

/-- C6: new_from_slice forwards to the factory a pair array of the
same length as the input and whose i-th entry is the translation of
the i-th input type, in order. -/
theorem new_from_slice_spec (ts : List Type') :
    (CTypeInfo.new_from_slice ts).1 = ts.length ∧
    ∀ i, i < ts.length →
      (CTypeInfo.new_from_slice ts).2[i]? =
        (ts[i]?).map CTypeSequenceInfo.fromType := by
  unfold CTypeInfo.new_from_slice v8__CTypeInfo__New__From__Slice
  rw [foldl_push_eq_map CTypeSequenceInfo.fromType ts []]
  refine ⟨by simp, ?_⟩
  intro i hi
  simp

/-- C6 witness: a two-type input at index 1. -/
theorem new_from_slice_spec_witness :
    (CTypeInfo.new_from_slice [Type'.Int32, Type'.TypedArray CType.Uint8]).2[1]? =
      (([Type'.Int32, Type'.TypedArray CType.Uint8])[1]?).map
        CTypeSequenceInfo.fromType :=
  (new_from_slice_spec [Type'.Int32, Type'.TypedArray CType.Uint8]).2 1
    (by decide)

/-- C8: a FastFunction implementation that overrides neither default
declares the empty argument list and the Void return tag. -/
theorem fast_function_defaults_spec (p : Nat) :
    ({ function := p } : FastFunction).args = [] ∧
    ({ function := p } : FastFunction).return_type = CType.Void :=
  ⟨rfl, rfl⟩
